import Mathlib

/- Verification of the ingestion-dedup-classify-summarize-deliver pipeline of
   Stone_Slack_Alerts (src/MARADMIN.py, with shared helpers mirrored in src/News.py).

   Shallow embedding conventions:
   - Python strings are `List Char` (`Str`); `len` is `List.length`.
   - External collaborators (HTTP page fetch, HTML-to-text conversion done by
     BeautifulSoup, the OpenAI generation call, the Slack webhook, the clock)
     are oracle parameters gathered in the `Oracles` structure.
   - Fallible external calls return `Option`/sum-like outcome types; a `none`
     or error outcome stands for the Python call raising an exception.  -/

abbrev Str := List Char

/-- Whitespace class used by Python `str.strip()` (ASCII whitespace plus the
    common Unicode space characters that matter for this feed data). -/
def isPySpace (c : Char) : Bool :=
  c = ' ' || c = '\t' || c = '\n' || c = '\x0d' || c = '\x0b' || c = '\x0c' ||
  c = '\x85' || c = '\xa0'

/-- Line-break class of Python `str.splitlines()`. -/
def isPyLineBreak (c : Char) : Bool :=
  c = '\n' || c = '\x0d' || c = '\x0b' || c = '\x0c' || c = '\x1c' || c = '\x1d' ||
  c = '\x1e' || c = '\x85' || c = ' ' || c = ' '

/-- Python `str.lower()` (character-wise; the keyword tables are ASCII). -/
def pyLower (s : Str) : Str := s.map Char.toLower

/-- Python `str.strip()`: drop leading and trailing whitespace. -/
def pyStrip (s : Str) : Str :=
  ((s.dropWhile isPySpace).reverse.dropWhile isPySpace).reverse

/-- Python substring test `p in t`. -/
def pySub (p : Str) (t : Str) : Bool := decide (p <:+: t)

/-- Python `str.splitlines(keepends)`: accumulator holds the current line
    reversed; a `"\x0d\n"` pair counts as a single line break. -/
def splitlinesAux (keep : Bool) : Str → Str → List Str
  | [], acc => if acc.isEmpty then [] else [acc.reverse]
  | [c], acc =>
    if isPyLineBreak c then
      (acc.reverse ++ (if keep then [c] else [])) :: splitlinesAux keep [] []
    else
      splitlinesAux keep [] (c :: acc)
  | c :: c2 :: rest, acc =>
    if c = '\x0d' && c2 = '\n' then
      (acc.reverse ++ (if keep then [c, c2] else [])) :: splitlinesAux keep rest []
    else if isPyLineBreak c then
      (acc.reverse ++ (if keep then [c] else [])) :: splitlinesAux keep (c2 :: rest) []
    else
      splitlinesAux keep (c2 :: rest) (c :: acc)

/-- `msg.splitlines(True)` — line break characters kept at the end of each line. -/
def splitlinesKeep (s : Str) : List Str := splitlinesAux true s []

/-- `msg.splitlines()` — line break characters dropped. -/
def splitlinesDrop (s : Str) : List Str := splitlinesAux false s []

/-- Slack character budget constant `SLACK_MAX_CHARS` from the source. -/
def SLACK_MAX_CHARS : Nat := 35000

/-- Loop body of `chunk_for_slack`: greedily pack whole lines into `buf`,
    flushing `buf` when the next line would push it past `maxc`. -/
def chunkLoop (maxc : Nat) : List Str → Str → List Str
  | [], buf => if buf.isEmpty then [] else [buf]
  | line :: rest, buf =>
    if buf.length + line.length > maxc && !buf.isEmpty then
      buf :: chunkLoop maxc rest line
    else
      chunkLoop maxc rest (buf ++ line)

/-- `chunk_for_slack` from src/MARADMIN.py lines 505-519 (identical in
    src/News.py lines 167-180). -/
def chunk_for_slack (msg : Str) (maxc : Nat) : List Str :=
  if msg.length ≤ maxc then [msg] else chunkLoop maxc (splitlinesKeep msg) []

theorem chunkLoop_cons_pos {maxc : Nat} {line : Str} {rest : List Str} {buf : Str}
    (h : (decide (buf.length + line.length > maxc) && !buf.isEmpty) = true) :
    chunkLoop maxc (line :: rest) buf = buf :: chunkLoop maxc rest line := by
  simp [chunkLoop, h]

theorem chunkLoop_cons_neg {maxc : Nat} {line : Str} {rest : List Str} {buf : Str}
    (h : (decide (buf.length + line.length > maxc) && !buf.isEmpty) = false) :
    chunkLoop maxc (line :: rest) buf = chunkLoop maxc rest (buf ++ line) := by
  simp [chunkLoop, h]

theorem splitlinesKeep_flatten_aux :
    ∀ (s acc : Str), (splitlinesAux true s acc).flatten = acc.reverse ++ s
  | [], acc => by
    cases h : acc.isEmpty
    · simp [splitlinesAux, h]
    · simp [splitlinesAux, h, List.isEmpty_iff.mp h]
  | [c], acc => by
    cases h : isPyLineBreak c
    · have ih := splitlinesKeep_flatten_aux [] (c :: acc)
      simp only [splitlinesAux, h, Bool.false_eq_true, if_false] at ih ⊢
      simpa using ih
    · simp [splitlinesAux, h]
  | c :: c2 :: rest, acc => by
    cases h1 : (c = '\x0d' && c2 = '\n')
    · cases h2 : isPyLineBreak c
      · have ih := splitlinesKeep_flatten_aux (c2 :: rest) (c :: acc)
        simp only [splitlinesAux, h1, h2, Bool.false_eq_true, if_false] at ih ⊢
        simpa using ih
      · have ih := splitlinesKeep_flatten_aux (c2 :: rest) []
        simp [splitlinesAux, h1, h2, ih]
    · have ih := splitlinesKeep_flatten_aux rest []
      have hc : c = '\x0d' := by simpa using (Bool.and_eq_true _ _ |>.mp h1).1
      have hc2 : c2 = '\n' := by simpa using (Bool.and_eq_true _ _ |>.mp h1).2
      subst hc hc2
      simp [splitlinesAux, ih]

/-- Concatenating the kept-ends line split reproduces the string. -/
theorem splitlinesKeep_flatten (s : Str) : (splitlinesKeep s).flatten = s := by
  simpa using splitlinesKeep_flatten_aux s []

theorem splitlinesKeep_aux_ne_nil :
    ∀ (s acc : Str), ∀ l ∈ splitlinesAux true s acc, l ≠ []
  | [], acc => by
    cases h : acc.isEmpty
    · intro l hl
      simp only [splitlinesAux, h, Bool.false_eq_true, if_false, List.mem_singleton] at hl
      subst hl
      simpa [List.isEmpty_iff] using h
    · simp [splitlinesAux, h]
  | [c], acc => by
    cases h : isPyLineBreak c
    · intro l hl
      simp only [splitlinesAux, h, Bool.false_eq_true, if_false] at hl
      exact splitlinesKeep_aux_ne_nil [] (c :: acc) l hl
    · intro l hl
      simp only [splitlinesAux, h, if_true, List.mem_cons] at hl
      rcases hl with hl | hl
      · subst hl; simp
      · exact splitlinesKeep_aux_ne_nil [] [] l hl
  | c :: c2 :: rest, acc => by
    cases h1 : (c = '\x0d' && c2 = '\n')
    · cases h2 : isPyLineBreak c
      · intro l hl
        simp only [splitlinesAux, h1, h2, Bool.false_eq_true, if_false] at hl
        exact splitlinesKeep_aux_ne_nil (c2 :: rest) (c :: acc) l hl
      · intro l hl
        simp only [splitlinesAux, h1, h2, Bool.false_eq_true, if_false, if_true,
          List.mem_cons] at hl
        rcases hl with hl | hl
        · subst hl; simp
        · exact splitlinesKeep_aux_ne_nil (c2 :: rest) [] l hl
    · intro l hl
      simp only [splitlinesAux, h1, if_true, List.mem_cons] at hl
      rcases hl with hl | hl
      · subst hl; simp
      · exact splitlinesKeep_aux_ne_nil rest [] l hl

/-- Every line produced by the kept-ends split is nonempty. -/
theorem splitlinesKeep_ne_nil (s : Str) : ∀ l ∈ splitlinesKeep s, l ≠ [] :=
  splitlinesKeep_aux_ne_nil s []

theorem chunkLoop_flatten (maxc : Nat) :
    ∀ (ls : List Str) (buf : Str), (chunkLoop maxc ls buf).flatten = buf ++ ls.flatten
  | [], buf => by
    cases h : buf.isEmpty
    · simp [chunkLoop, h]
    · simp [chunkLoop, h, List.isEmpty_iff.mp h]
  | line :: rest, buf => by
    cases h : (decide (buf.length + line.length > maxc) && !buf.isEmpty)
    · have ih := chunkLoop_flatten maxc rest (buf ++ line)
      simp only [chunkLoop, h, Bool.false_eq_true, if_false] at ih ⊢
      simpa using ih
    · have ih := chunkLoop_flatten maxc rest line
      simp [chunkLoop, h, ih]

theorem chunkLoop_grouping (maxc : Nat) :
    ∀ (ls : List Str) (pre : List Str), (∀ l ∈ ls, l ≠ []) → (∀ l ∈ pre, l ≠ []) →
      ∃ gs : List (List Str),
        chunkLoop maxc ls pre.flatten = gs.map List.flatten ∧ gs.flatten = pre ++ ls
  | [], pre => by
    intro _ hpre
    cases h : pre.flatten.isEmpty
    · refine ⟨[pre], ?_, by simp⟩
      simp [chunkLoop, h]
    · have hpre0 : pre = [] := by
        by_contra hne
        rcases List.exists_cons_of_ne_nil hne with ⟨a, t, rfl⟩
        have ha : a ≠ [] := hpre a (by simp)
        have h0 : a ++ t.flatten = [] := by simpa [List.isEmpty_iff] using h
        exact ha (List.append_eq_nil.mp h0).1
      subst hpre0
      exact ⟨[], by simp [chunkLoop]⟩
  | line :: rest, pre => by
    intro hls hpre
    have hline : line ≠ [] := hls line (by simp)
    have hrest : ∀ l ∈ rest, l ≠ [] := fun l hl => hls l (by simp [hl])
    cases h : (decide (pre.flatten.length + line.length > maxc) && !pre.flatten.isEmpty)
    · rcases chunkLoop_grouping maxc rest (pre ++ [line]) hrest
          (by intro l hl
              rcases List.mem_append.mp hl with h' | h'
              · exact hpre l h'
              · simpa [List.mem_singleton.mp h'] using hline) with ⟨gs, hg1, hg2⟩
      refine ⟨gs, ?_, by simpa using hg2⟩
      have he : (pre ++ [line]).flatten = pre.flatten ++ line := by simp
      rw [he] at hg1
      simp only [chunkLoop, h, Bool.false_eq_true, if_false]
      exact hg1
    · rcases chunkLoop_grouping maxc rest [line] hrest (by simpa using hline) with
        ⟨gs, hg1, hg2⟩
      refine ⟨pre :: gs, ?_, ?_⟩
      · have he : ([line] : List Str).flatten = line := by simp
        rw [he] at hg1
        rw [chunkLoop_cons_pos h, hg1]
        simp
      · simp [hg2]

theorem chunkLoop_bound (maxc : Nat) (lines0 : List Str) :
    ∀ (ls : List Str) (buf : Str),
      (buf.length ≤ maxc ∨ buf ∈ lines0) → (∀ l ∈ ls, l ∈ lines0) →
      ∀ c ∈ chunkLoop maxc ls buf, c.length ≤ maxc ∨ c ∈ lines0
  | [], buf => by
    intro hbuf _ c hc
    cases h : buf.isEmpty
    · simp only [chunkLoop, h, Bool.false_eq_true, if_false, List.mem_singleton] at hc
      subst hc; exact hbuf
    · simp [chunkLoop, h] at hc
  | line :: rest, buf => by
    intro hbuf hls c hc
    have hline : line ∈ lines0 := hls line (by simp)
    have hrest : ∀ l ∈ rest, l ∈ lines0 := fun l hl => hls l (by simp [hl])
    cases h : (decide (buf.length + line.length > maxc) && !buf.isEmpty)
    · simp only [chunkLoop, h, Bool.false_eq_true, if_false] at hc
      have hnew : (buf ++ line).length ≤ maxc ∨ (buf ++ line) ∈ lines0 := by
        cases hbe : buf.isEmpty
        · left
          have hdec : decide (buf.length + line.length > maxc) = false := by
            cases hd : decide (buf.length + line.length > maxc)
            · rfl
            · rw [hd, hbe] at h; simp at h
          have := of_decide_eq_false hdec
          simpa [List.length_append] using Nat.le_of_not_lt this
        · right
          have hb0 : buf = [] := List.isEmpty_iff.mp hbe
          simpa [hb0] using hline
      exact chunkLoop_bound maxc lines0 rest (buf ++ line) hnew hrest c hc
    · simp only [chunkLoop, h, if_true, List.mem_cons] at hc
      rcases hc with hc | hc
      · subst hc; exact hbuf
      · exact chunkLoop_bound maxc lines0 rest line (Or.inr hline) hrest c hc

/- ----------------------------
   Classification + mode selection (src/MARADMIN.py lines 64-347)
   ---------------------------- -/

/-- Regex word character class `\w` (ASCII fragment, which covers this feed's data). -/
def isWordChar (c : Char) : Bool := c.isAlphanum || c = '_'

/-- Regex whitespace class `\s` (ASCII fragment). -/
def isReSpace (c : Char) : Bool := isPySpace c

/-- High-priority MOS table `HIGH_MOS`. -/
def HIGH_MOS : List Str := ["1701", "1702", "1710", "1720", "1721"].map String.data

/-- Priority interest topics `PRIORITY_TOPICS`. -/
def PRIORITY_TOPICS : List Str :=
  ["artificial intelligence", "ai", "machine learning", "ml", "llm", "data science",
   "data engineering", "cyberspace", "cyber", "cybersecurity", "zero trust", "rmf",
   "ato", "dodin", "uscybercom", "marforcyber", "jfhq-dodin", "cmf", "oco", "dco",
   "space", "satcom", "pnt", "innovation", "experimentation", "pilot",
   "modernization", "software factory"].map String.data

/-- Promotion-list keyword bucket `KW_PROMOTION_LIST`. -/
def KW_PROMOTION_LIST : List Str :=
  ["officer promotions", "enlisted promotions", "promotion authority",
   "selected for promotion", "promotion selection", "promotion list",
   "approved for promotion", "to the grade of", "promotions for"].map String.data

/-- Results keyword bucket `KW_RESULTS`. -/
def KW_RESULTS : List Str :=
  ["results", "selection list", "selected list", "board results",
   "approved selection"].map String.data

/-- Board-schedule keyword bucket `KW_BOARD_SCHEDULE`. -/
def KW_BOARD_SCHEDULE : List Str :=
  ["promotion selection boards", "selection boards", "board will convene",
   "convening date", "board correspondence", "selection board", "board schedule",
   "projected"].map String.data

/-- `contains_any`: case-insensitive any-substring test. -/
def contains_any (text : Str) (phrases : List Str) : Bool :=
  let t := pyLower text
  phrases.any (fun p => pySub (pyLower p) t)

/-- Attempt of regex `\b(1[0-9]{3})\b` (`MOS_RE`) at one position: `prev` is the
    character before the position (`none` at the start of the string). -/
def mosAt (prev : Option Char) : Str → Option Str
  | c0 :: c1 :: c2 :: c3 :: rest =>
    if c0 = '1' && c1.isDigit && c2.isDigit && c3.isDigit &&
       (match prev with | none => true | some p => !isWordChar p) &&
       (match rest with | [] => true | r :: _ => !isWordChar r) then
      some [c0, c1, c2, c3]
    else none
  | _ => none

/-- Scan every position for `MOS_RE` (boundaries make matches non-overlapping,
    so scanning all positions agrees with `re.findall`). -/
def mosScan : Option Char → Str → List Str
  | _, [] => []
  | prev, c :: rest =>
    (match mosAt prev (c :: rest) with
     | some m => [m]
     | none => []) ++ mosScan (some c) rest

/-- `extract_mos_codes`: found 4-digit codes as a set (deduplicated). -/
def extract_mos_codes (text : Str) : List Str := (mosScan none text).dedup

/-- Lexicographic string sort standing for Python `sorted` on strings. -/
def pySortStr (l : List Str) : List Str := List.insertionSort (· ≤ ·) l

/-- `mos_relevance`: `(is_17xx_or_high_mos, sorted high MOS hits)`. -/
def mos_relevance (text : Str) : Bool × List Str :=
  let mos := extract_mos_codes text
  let high_hits := pySortStr (mos.filter (fun m => HIGH_MOS.contains m))
  (!high_hits.isEmpty || mos.any (fun m => m.take 2 = "17".data), high_hits)

/-- `classify_maradmin`: ordered first-match-wins classification over the
    lower-cased `title ++ "\n" ++ body`. -/
def classify_maradmin (title body : Str) : Str :=
  let text := pyLower (title ++ '\n' :: body)
  if contains_any text KW_PROMOTION_LIST &&
     (contains_any text KW_RESULTS || pySub "promot".data text) then
    "PROMOTION_LIST_READ_ASAP".data
  else if contains_any text KW_BOARD_SCHEDULE &&
          (pySub "board".data text || pySub "selection".data text) then
    "BOARD_DATES_ONE_LINER".data
  else if contains_any text KW_RESULTS then
    "RESULTS_BRIEF".data
  else
    "GENERAL".data

/-- Result of `choose_summary_mode`: mode name plus bullet budget. -/
structure ModeDecision where
  mode : Str
  bullets : Nat
deriving DecidableEq

/-- `choose_summary_mode` from src/MARADMIN.py lines 325-342. -/
def choose_summary_mode (category title body : Str) : ModeDecision :=
  let text := title ++ '\n' :: body
  let is17xx := (mos_relevance text).1
  let isPriorityTopic := contains_any text PRIORITY_TOPICS
  if category = "PROMOTION_LIST_READ_ASAP".data then ⟨"read_asap".data, 3⟩
  else if category = "BOARD_DATES_ONE_LINER".data then ⟨"dates_only".data, 14⟩
  else if category = "RESULTS_BRIEF".data then ⟨"brief_results".data, 2⟩
  else if is17xx then ⟨"full_17xx".data, 6⟩
  else if isPriorityTopic then ⟨"fyi_not_17xx".data, 3⟩
  else ⟨"minimal".data, 1⟩

/-- `looks_like_full_message` from src/MARADMIN.py lines 238-247. -/
def looks_like_full_message (text : Str) : Bool :=
  let t := pyLower text
  if t.isEmpty then false
  else pySub "maradmin".data t || pySub "msgid/genadmin".data t || pySub "r ".data t

example : looks_like_full_message "Stuff about MARADMIN 123/25".data = true := by decide
example : looks_like_full_message "".data = false := by decide
example : classify_maradmin "t".data "Officer promotions for May".data =
    "PROMOTION_LIST_READ_ASAP".data := by decide
example : extract_mos_codes "MOS 1721 and 2651".data = ["1721".data] := by decide
example : extract_mos_codes "code 17211 here".data = [] := by decide
example : (choose_summary_mode "GENERAL".data "x".data "MOS 1721".data).mode =
    "full_17xx".data := by decide

/- ----------------------------
   Summarizer adapter (src/MARADMIN.py lines 354-456)
   ---------------------------- -/

/-- Decimal rendering of a number interpolated into an f-string. -/
def nat_str (n : Nat) : Str := (Nat.repr n).data

/-- Shared system framing `base` of `build_llm_instructions`. -/
def LLM_BASE : Str :=
  ("You summarize USMC MARADMINS for a Cyberspace Officer.\n" ++
   "Output ONLY bullet points (no headings, no intro).\n" ++
   "Do NOT invent details; use only the provided text. If unknown, say \x27Not stated\x27.\n" ++
   "Keep bullets tight: 1 sentence where possible, max 2 sentences.\n" ++
   "Prefer concrete dates/deadlines and required actions.\n").data

/-- `build_llm_instructions`: mode-specific directive template with the bullet
    budget interpolated. -/
def build_llm_instructions (mode : Str) (bullets : Nat) : Str :=
  if mode = "read_asap".data then
    LLM_BASE ++ "Provide 1–".data ++ nat_str bullets ++
    (" bullets MAX.\n" ++
     "This is a PROMOTION/SELECTION LIST with names.\n" ++
     "- Do NOT summarize or list names.\n" ++
     "- MUST include \x27READ ASAP — name list inside.\x27\n" ++
     "Focus on: what rank(s), what population (Active/AR/Reserve), what month/timeframe, and any admin notes.\n").data
  else if mode = "dates_only".data then
    LLM_BASE ++
    ("This is a promotion selection board schedule / dates message.\n" ++
     "- First bullet: a one-sentence summary.\n" ++
     "- Remaining bullets: key dates only (board correspondence due dates and convening dates).\n" ++
     "Provide up to ").data ++ nat_str bullets ++
    (" bullets total.\n" ++ "No extra commentary.\n").data
  else if mode = "brief_results".data then
    LLM_BASE ++ "Provide 1–".data ++ nat_str bullets ++
    (" bullets MAX.\n" ++
     "This is BOARD RESULTS.\n" ++
     "- Do NOT summarize names.\n" ++
     "- Tell the reader to open/read the MARADMIN for names.\n").data
  else if mode = "fyi_not_17xx".data then
    LLM_BASE ++ "Provide 1–".data ++ nat_str bullets ++
    (" bullets MAX.\n" ++
     "Tag the first bullet with \x27FYI—Not 17XX\x27.\n" ++
     "Focus on: what it is, who it applies to, and any deadline/timeline.\n").data
  else if mode = "minimal".data then
    LLM_BASE ++ "Provide exactly 1 bullet.\n".data
  else
    LLM_BASE ++ "Provide 4–".data ++ nat_str bullets ++
    (" bullets.\n" ++
     "This MARADMIN is relevant to 17XX / MOS 1701/1702/1710/1720/1721.\n" ++
     "If the MARADMIN lists multiple MOSs, only include details relevant to 17XX / those MOSs.\n" ++
     "Emphasize deadlines/timelines, eligibility, and required actions.\n").data

/-- The user input block built inside `summarize_maradmin`. -/
def build_user_input (title link published mtext : Str) : Str :=
  "Title: ".data ++ title ++ "\nLink: ".data ++ link ++ "\nPublished: ".data ++
  published ++ "\n\nMARADMIN text:\n".data ++ mtext

/-- Strip a leading run of bullet glyphs plus following whitespace,
    `re.sub(r"^[-•*]+\s*", "", s)` (the glyph class is hyphen, U+2022, asterisk). -/
def stripBulletGlyph (s : Str) : Str :=
  let t := s.dropWhile (fun c => c = '-' || c = '•' || c = '*')
  if t.length = s.length then s else t.dropWhile isReSpace

/-- Post-processing loop of `summarize_maradmin`: split the (already stripped)
    output into lines, keep the stripped nonempty ones with glyphs removed. -/
def usable_lines (out : Str) : List Str :=
  (splitlinesDrop out).filterMap (fun line =>
    let s := pyStrip line
    if s.isEmpty then none
    else
      let s2 := stripBulletGlyph s
      if s2.isEmpty then none else some s2)

/-- Sentinel bullet used when generation output has no usable lines. -/
def NO_SUMMARY_SENTINEL : Str :=
  "No extractable summary produced from the available text.".data

/-- Pure tail of `summarize_maradmin`: post-process raw generation output into
    the bounded bullet list (`lines[: max(1, bullets)]`). -/
def summarize_post (rawOut : Str) (bullets : Nat) : List Str :=
  let lines := usable_lines (pyStrip rawOut)
  let lines := if lines.isEmpty then [NO_SUMMARY_SENTINEL] else lines
  lines.take (max 1 bullets)

/- ----------------------------
   MARADMIN number extraction (`MARADMIN_NUM_RE`, lines 141 and 345-347)
   ---------------------------- -/

/-- Word boundary `\b` after a match: next character absent or not a word char. -/
def wordBoundaryAfter : Str → Bool
  | [] => true
  | c :: _ => !isWordChar c

/-- Word boundary `\b` before a match. -/
def boundaryBefore : Option Char → Bool
  | none => true
  | some p => !isWordChar p

/-- Case-insensitive literal match at the start of `s`. -/
def ciStarts (pat : Str) (s : Str) : Bool := pyLower (s.take pat.length) = pat

/-- Attempt of `\bMARADMIN\s+(\d{1,4}/\d{2})\b` at one position, returning the
    captured group. -/
def marNumAt (prev : Option Char) (s : Str) : Option Str :=
  if boundaryBefore prev && ciStarts "maradmin".data s then
    let r := s.drop 8
    let ws := r.takeWhile isReSpace
    let r1 := r.dropWhile isReSpace
    if ws.isEmpty then none
    else
      let ds := r1.takeWhile Char.isDigit
      let r2 := r1.dropWhile Char.isDigit
      if ds.length < 1 || ds.length > 4 then none
      else
        match r2 with
        | '/' :: r3 =>
          let ds2 := r3.takeWhile Char.isDigit
          let r4 := r3.dropWhile Char.isDigit
          if ds2.length = 2 && wordBoundaryAfter r4 then some (ds ++ '/' :: ds2)
          else none
        | _ => none
  else none

/-- Leftmost-match scan used for `re.search`-style helpers returning a value. -/
def scanFind {α : Type} (p : Option Char → Str → Option α) : Option Char → Str → Option α
  | _, [] => none
  | prev, c :: rest =>
    match p prev (c :: rest) with
    | some x => some x
    | none => scanFind p (some c) rest

/-- `extract_maradmin_number` over `f"{title}\n{body}"`. -/
def extract_maradmin_number (title body : Str) : Option Str :=
  scanFind marNumAt none (title ++ '\n' :: body)

example : extract_maradmin_number "MARADMIN 123/25 stuff".data "".data =
    some "123/25".data := by decide
example : extract_maradmin_number "t".data "see MARADMINS 12345/25".data = none := by decide
example : extract_maradmin_number "t".data "maradmin 1/07 ok".data =
    some "1/07".data := by decide

/- ----------------------------
   Page-text extraction (src/MARADMIN.py lines 250-282) with BeautifulSoup
   text conversion abstracted as oracles
   ---------------------------- -/

/-- One step of `re.sub(r"\n{3,}", "\n\n", text)`: emit a pending newline run,
    collapsed to two if it had three or more. -/
def collapseRun (n : Nat) : Str := List.replicate (if n ≥ 3 then 2 else n) '\n'

def collapseGo : Str → Nat → Str
  | [], n => collapseRun n
  | c :: rest, n =>
    if c = '\n' then collapseGo rest (n + 1)
    else collapseRun n ++ c :: collapseGo rest 0

/-- `re.sub(r"\n{3,}", "\n\n", s)`. -/
def collapseBlank (s : Str) : Str := collapseGo s 0

example : collapseBlank "a\n\n\n\nb".data = "a\n\nb".data := by decide
example : collapseBlank "a\n\nb".data = "a\n\nb".data := by decide

/-- Outcome of `http_get`: `requests` either returns page text, raises
    `HTTPError` carrying an optional response status, or raises something else. -/
inductive FetchOutcome where
  | ok (html : Str)
  | httpError (status : Option Nat)
  | otherError
deriving DecidableEq

/-- External collaborators of one run, as pure oracles:
    `fetch` is `http_get`; `soupCleanText html` is
    `BeautifulSoup(html).get_text("\n", strip=True)` used by `clean_rss_summary`;
    `soupPageText html` is `BeautifulSoup(html).get_text("\n")` used by
    `extract_message_text`; `gen model instructions input` is the OpenAI
    `responses.create` call (`none` = raised, `some t` = returned with
    `output_text or ""` equal to `t`); `deliver` is the Slack webhook success
    per chunk; `stamp`/`nowIso` are the clock reads. -/
structure Oracles where
  fetch : Str → FetchOutcome
  soupCleanText : Str → Str
  soupPageText : Str → Str
  gen : Str → Str → Str → Option Str
  deliver : Str → Bool
  stamp : Str
  nowIso : Str

/-- `clean_rss_summary`: empty input short-circuits; otherwise markup-strip via
    the oracle, collapse blank runs, strip. -/
def clean_rss_summary (oc : Oracles) (summary_html : Str) : Str :=
  if summary_html.isEmpty then []
  else pyStrip (collapseBlank (oc.soupCleanText summary_html))

/-- Shared tail `\d+/\d+\b` of the two numeric marker patterns. -/
def numSlashNumTail (r : Str) : Bool :=
  let ds := r.takeWhile Char.isDigit
  let r1 := r.dropWhile Char.isDigit
  !ds.isEmpty &&
  (match r1 with
   | '/' :: r2 =>
     let ds2 := r2.takeWhile Char.isDigit
     let r3 := r2.dropWhile Char.isDigit
     !ds2.isEmpty && wordBoundaryAfter r3
   | _ => false)

/-- Attempt of `\bMARADMINS?\s*:\s*\d+/\d+\b` at one position. -/
def markerColonAt (prev : Option Char) (s : Str) : Bool :=
  boundaryBefore prev && ciStarts "maradmin".data s &&
  (let tail := fun (r : Str) =>
     match r.dropWhile isReSpace with
     | ':' :: r2 => numSlashNumTail (r2.dropWhile isReSpace)
     | _ => false
   (ciStarts "maradmins".data s && tail (s.drop 9)) || tail (s.drop 8))

/-- Attempt of `\bMARADMIN\s+\d+/\d+\b` at one position. -/
def markerNumAt (prev : Option Char) (s : Str) : Bool :=
  boundaryBefore prev && ciStarts "maradmin".data s &&
  (let r := s.drop 8
   !(r.takeWhile isReSpace).isEmpty && numSlashNumTail (r.dropWhile isReSpace))

/-- Attempt of `\bMSGID/GENADMIN\b` at one position. -/
def markerMsgidAt (prev : Option Char) (s : Str) : Bool :=
  boundaryBefore prev && ciStarts "msgid/genadmin".data s && wordBoundaryAfter (s.drop 14)

/-- Leftmost match index of a positional predicate (`re.search(...).start()`). -/
def scanIdx (p : Option Char → Str → Bool) : Option Char → Str → Nat → Option Nat
  | _, [], _ => none
  | prev, c :: rest, i =>
    if p prev (c :: rest) then some i else scanIdx p (some c) rest (i + 1)

/-- `extract_message_text`: page text via oracle, blank-collapse and strip, then
    slice from the first structural marker (patterns tried in priority order),
    else a 12000-character prefix. -/
def extract_message_text (oc : Oracles) (html : Str) : Str :=
  let text := pyStrip (collapseBlank (oc.soupPageText html))
  let idx :=
    match scanIdx markerColonAt none text 0 with
    | some i => some i
    | none =>
      match scanIdx markerNumAt none text 0 with
      | some i => some i
      | none => scanIdx markerMsgidAt none text 0
  match idx with
  | none => text.take 12000
  | some i => pyStrip ((text.drop i).take 20000)

/- ----------------------------
   Feed entries and dedup (src/MARADMIN.py lines 152-197, 562-581)
   ---------------------------- -/

/-- One normalized RSS record as built by `fetch_rss_entries`. -/
structure FeedEntry where
  guid : Str
  title : Str
  link : Str
  summary : Str
  published : Str
deriving DecidableEq

/-- `normalize_id`: first truthy of guid, link, title, stripped. -/
def normalize_id (e : FeedEntry) : Str :=
  pyStrip (if !e.guid.isEmpty then e.guid
           else if !e.link.isEmpty then e.link
           else e.title)

/-- `find_new_entries`: keep entries whose nonempty normalized id is unseen. -/
def find_new_entries (entries : List FeedEntry) (seen_ids : List Str) : List FeedEntry :=
  entries.filter (fun e =>
    let nid := normalize_id e
    !nid.isEmpty && !seen_ids.contains nid)

/-- Python `set.add` on the seen-id set (sets are modelled as duplicate-free
    lists; insertion order is irrelevant because persistence sorts). -/
def addSeen (seen : List Str) (x : Str) : List Str :=
  if seen.contains x then seen else seen ++ [x]

/- ----------------------------
   State file (src/MARADMIN.py lines 152-164, identical in src/News.py)
   ---------------------------- -/

/-- JSON values as stored in the state file. -/
inductive JVal where
  | null
  | bool (b : Bool)
  | num (n : Int)
  | str (s : Str)
  | arr (xs : List JVal)
  | obj (fields : List (Str × JVal))

/-- What reading and parsing the state file can produce: the file may be
    missing, unreadable (an IO error inside the `try`), corrupt (a
    `json.load` parse error), or parsed JSON. -/
inductive ReadResult where
  | missing
  | ioError
  | parseError
  | ok (v : JVal)

/-- `load_state`: missing file, unreadable file and corrupt JSON all collapse
    to the empty dict; otherwise the parsed value is returned. -/
def load_state : ReadResult → JVal
  | .missing => .obj []
  | .ioError => .obj []
  | .parseError => .obj []
  | .ok v => v

/-- Python truthiness of a JSON value. -/
def jTruthy : JVal → Bool
  | .null => false
  | .bool b => b
  | .num n => !(n == 0)
  | .str s => !s.isEmpty
  | .arr xs => !xs.isEmpty
  | .obj fs => !fs.isEmpty

/-- `dict.get` (first binding wins; state files written by the program have
    unique keys). -/
def jGet (fields : List (Str × JVal)) (k : Str) : Option JVal := fields.lookup k

/-- The `state.get("seen_ids") or state.get("processed") or
    state.get("processed_urls") or state.get("seen") or []` chain. -/
def seen_ids_value (fields : List (Str × JVal)) : JVal :=
  let pick := fun (k : Str) (next : JVal) =>
    match jGet fields k with
    | some v => if jTruthy v then v else next
    | none => next
  pick "seen_ids".data (pick "processed".data (pick "processed_urls".data
    (pick "seen".data (.arr []))))

/-- `set(seen_list if isinstance(seen_list, list) else [])`, keeping the string
    members (ids are strings; a non-string member could never equal a
    normalized id, so dropping it preserves every membership test). -/
def seen_ids_set (fields : List (Str × JVal)) : List Str :=
  match seen_ids_value fields with
  | .arr xs => (xs.filterMap (fun v => match v with | .str s => some s | _ => none)).dedup
  | _ => []

/- ----------------------------
   Slack message assembly (src/MARADMIN.py lines 463-502)
   ---------------------------- -/

/-- The per-item record stored in the `summaries` dict. -/
structure ItemInfo where
  mode : Str
  maradmin_number : Option Str
  bullets : List Str
deriving DecidableEq

/-- `entry_label`. -/
def entry_label (mode : Str) (maradmin_number : Option Str) : Str :=
  let num := match maradmin_number with
    | some n => if n.isEmpty then "MARADMIN".data else n
    | none => "MARADMIN".data
  if mode = "read_asap".data then "🚨 [PROMOTION LIST — READ ASAP] ".data ++ num
  else if mode = "dates_only".data then "[BOARD SCHEDULE] ".data ++ num
  else if mode = "brief_results".data then "[RESULTS — READ FOR NAMES] ".data ++ num
  else if mode = "full_17xx".data then "[17XX] ".data ++ num
  else if mode = "fyi_not_17xx".data then "[FYI—Not 17XX] ".data ++ num
  else "[ADMIN/LOW RELEVANCE] ".data ++ num

/-- Dict update `summaries[nid] = info`. -/
def assocSet (m : List (Str × ItemInfo)) (k : Str) (v : ItemInfo) : List (Str × ItemInfo) :=
  if m.any (fun kv => kv.1 == k) then
    m.map (fun kv => if kv.1 == k then (k, v) else kv)
  else m ++ [(k, v)]

/-- `summaries.get(nid, {})` followed by the `.get` calls with defaults. -/
def lookupInfo (summaries : List (Str × ItemInfo)) (nid : Str) : ItemInfo :=
  match summaries.lookup nid with
  | some info => info
  | none => ⟨"minimal".data, none, []⟩

/-- The three `parts` entries contributed by one feed entry. -/
def entry_parts (summaries : List (Str × ItemInfo)) (e : FeedEntry) : List Str :=
  let nid := normalize_id e
  let info := lookupInfo summaries nid
  let label := entry_label info.mode info.maradmin_number
  ("*<".data ++ e.link ++ "|".data ++ e.title ++ ">*  _(Published: ".data ++
     e.published ++ ")_\n_".data ++ label ++ "_".data) ::
  info.bullets.map (fun b => "• ".data ++ b) ++ [[]]

/-- `build_slack_message`: header plus per-item sections, joined by newlines
    and stripped. -/
def build_slack_message (stamp : Str) (new_entries : List FeedEntry)
    (summaries : List (Str × ItemInfo)) : Str :=
  let header := "*New MARADMINS detected* (".data ++ nat_str new_entries.length ++
    ") — ".data ++ stamp ++ "\n".data
  pyStrip (List.intercalate ['\n'] (header :: new_entries.flatMap (entry_parts summaries)))

/- ----------------------------
   The per-item loop body and `main` (src/MARADMIN.py lines 544-716)
   ---------------------------- -/

/-- The sentinel summary used by the catch-all handlers. -/
def OPEN_LINK_INFO : ItemInfo :=
  ⟨"minimal".data, none, ["Open the link to read this MARADMIN.".data]⟩

/-- The note appended when the page fetch came back 403 and the RSS excerpt
    was summarized instead. -/
def RSS_NOTE : Str :=
  "(Note: full text fetch blocked; using RSS excerpt — open link for full details.)".data

/-- Bullets substituted under `--show-raw` in the main path. -/
def showraw_bullets (mode : Str) : List Str :=
  ["(show-raw enabled; not summarized)".data, "Mode: ".data ++ mode,
   "Open the link to read.".data]

/-- Bullets substituted under `--show-raw` in the HTTP-error fallback path. -/
def showraw_rss_bullets (mode : Str) : List Str :=
  ["(show-raw enabled; using RSS summary)".data, "Mode: ".data ++ mode,
   "Open the link to read.".data]

/-- `summarize_maradmin`: build instructions and input, call the generation
    oracle, post-process; `none` propagates the raised exception. -/
def summarize_maradmin (oc : Oracles) (model title link published mtext mode : Str)
    (bullets : Nat) : Option (List Str) :=
  let instructions := build_llm_instructions mode bullets
  let input := build_user_input title link published mtext
  match oc.gen model instructions input with
  | none => none
  | some out => some (summarize_post out bullets)

/-- Classification, mode selection and summarization for one resolved text
    (the body shared by the try-path of the loop). -/
def summarize_step (oc : Oracles) (showRaw : Bool) (model : Str) (e : FeedEntry)
    (mtext : Str) : ItemInfo :=
  let num := extract_maradmin_number e.title mtext
  let category := classify_maradmin e.title mtext
  let d := choose_summary_mode category e.title mtext
  if showRaw then ⟨d.mode, num, showraw_bullets d.mode⟩
  else
    match summarize_maradmin oc model e.title e.link e.published mtext d.mode d.bullets with
    | some bl => ⟨d.mode, num, bl⟩
    | none => OPEN_LINK_INFO

/-- The `except requests.HTTPError` handler: fall back to the cleaned RSS
    summary, appending the 403 note after truncation when the response status
    was 403; any inner failure degrades to the sentinel. -/
def fallback_step (oc : Oracles) (showRaw : Bool) (model : Str) (e : FeedEntry)
    (status : Option Nat) : ItemInfo :=
  let fb := clean_rss_summary oc e.summary
  if fb.isEmpty then OPEN_LINK_INFO
  else
    let num := extract_maradmin_number e.title fb
    let category := classify_maradmin e.title fb
    let d := choose_summary_mode category e.title fb
    if showRaw then ⟨d.mode, num, showraw_rss_bullets d.mode⟩
    else
      match summarize_maradmin oc model e.title e.link e.published fb d.mode d.bullets with
      | some bl => ⟨d.mode, num, if status = some 403 then bl ++ [RSS_NOTE] else bl⟩
      | none => OPEN_LINK_INFO

/-- The text-source decision at the top of the loop body: prefer the RSS
    summary when it already looks like the full message and cleans to
    something nonempty. -/
def preferred_feed_text (oc : Oracles) (rss : Str) : Str :=
  if looks_like_full_message rss then clean_rss_summary oc rss else []

/-- One iteration of the per-item loop of `main` (lines 586-700), producing the
    `summaries[nid]` record; every branch of the source also adds `nid` to
    `seen_ids`, which `run_main` does uniformly. -/
def process_item (oc : Oracles) (showRaw : Bool) (model : Str) (e : FeedEntry) : ItemInfo :=
  let text0 := preferred_feed_text oc e.summary
  if !text0.isEmpty then summarize_step oc showRaw model e text0
  else
    match oc.fetch e.link with
    | .ok html => summarize_step oc showRaw model e (extract_message_text oc html)
    | .httpError status => fallback_step oc showRaw model e status
    | .otherError => OPEN_LINK_INFO

/-- The two state-file keys the program writes back. -/
structure SavedState where
  seen_ids : List Str
  last_run_utc : Str
deriving DecidableEq

/-- Sequential chunk delivery: the chunks posted before the first failing
    webhook call, and whether all succeeded (a failure raises out of `main`). -/
def deliverAll (d : Str → Bool) : List Str → (List Str × Bool)
  | [] => ([], true)
  | c :: rest =>
    if d c then
      let r := deliverAll d rest
      (c :: r.1, r.2)
    else ([], false)

/-- Observable outcome of one run of `main`. -/
structure RunResult where
  newEntries : List FeedEntry
  summaries : List (Str × ItemInfo)
  message : Str
  chunks : List Str
  finalSeen : List Str
  delivered : List Str
  persisted : Option SavedState

/-- `entries[: max(1, args.max)]` followed by the dedup filter (line 573-574);
    `--force` treats every fetched entry as new. -/
def run_new_entries (force : Bool) (maxN : Nat) (entries0 : List FeedEntry)
    (seen0 : List Str) : List FeedEntry :=
  let entries := entries0.take (max 1 maxN)
  if force then entries else find_new_entries entries seen0

/-- The per-loop `seen_ids.add(nid)` calls accumulated over the new entries. -/
def seenFold (es : List FeedEntry) (s : List Str) : List Str :=
  es.foldl (fun s e => addSeen s (normalize_id e)) s

/-- The per-loop `summaries[nid] = ...` assignments accumulated over the new
    entries. -/
def summariesFold (oc : Oracles) (showRaw : Bool) (model : Str)
    (es : List FeedEntry) : List (Str × ItemInfo) :=
  es.foldl (fun m e => assocSet m (normalize_id e) (process_item oc showRaw model e)) []

/-- The early exit of `main` (lines 576-581): update `last_run_utc`, write the
    sorted seen set, save. -/
def emptyRunResult (seen0 : List Str) (now : Str) : RunResult :=
  { newEntries := [], summaries := [], message := [], chunks := [],
    finalSeen := seen0, delivered := [],
    persisted := some ⟨pySortStr seen0, now⟩ }

/-- The main path of `main` after the per-item loop (lines 585-716): build and
    chunk the message, deliver unless `--dry-run`/`--show-raw` (a failing
    webhook call raises before the final save), persist the sorted seen set. -/
def mainRunResult (oc : Oracles) (dryRun showRaw : Bool) (model : Str)
    (newE : List FeedEntry) (seen0 : List Str) : RunResult :=
  let summaries := summariesFold oc showRaw model newE
  let seen1 := seenFold newE seen0
  let message := build_slack_message oc.stamp newE summaries
  let chunks := chunk_for_slack message SLACK_MAX_CHARS
  if dryRun || showRaw then
    { newEntries := newE, summaries := summaries, message := message,
      chunks := chunks, finalSeen := seen1, delivered := [],
      persisted := some ⟨pySortStr seen1, oc.nowIso⟩ }
  else
    let dres := deliverAll oc.deliver chunks
    { newEntries := newE, summaries := summaries, message := message,
      chunks := chunks, finalSeen := seen1, delivered := dres.1,
      persisted := if dres.2 then some ⟨pySortStr seen1, oc.nowIso⟩ else none }

/-- `main` from src/MARADMIN.py lines 544-716, from the point where the seen-id
    set has been extracted from the loaded state (`seenList`, deduplicated by
    `set(...)`): truncate the feed, filter to new entries, early-exit saving
    state when nothing is new; otherwise run the per-item loop and main path. -/
def run_main (oc : Oracles) (dryRun force showRaw : Bool) (maxN : Nat) (model : Str)
    (entries0 : List FeedEntry) (seenList : List Str) : RunResult :=
  let seen0 := seenList.dedup
  let newE := run_new_entries force maxN entries0 seen0
  if newE.isEmpty then emptyRunResult seen0 oc.nowIso
  else mainRunResult oc dryRun showRaw model newE seen0

/- ----------------------------
   Helper lemmas
   ---------------------------- -/

theorem toLower_idem (c : Char) : Char.toLower (Char.toLower c) = Char.toLower c := by
  unfold Char.toLower
  by_cases h : c.toNat ≥ 65 ∧ c.toNat ≤ 90
  · rw [if_pos h]
    have hvalid : (c.toNat + 32).isValidChar := Or.inl (by omega)
    have hof : Char.ofNat (c.toNat + 32) = Char.ofNatAux (c.toNat + 32) hvalid := by
      unfold Char.ofNat
      exact dif_pos hvalid
    rw [hof]
    have hv : (Char.ofNatAux (c.toNat + 32) hvalid).toNat = c.toNat + 32 := rfl
    rw [hv]
    rw [if_neg (by omega)]
  · rw [if_neg h, if_neg h]

theorem pyLower_idem (s : Str) : pyLower (pyLower s) = pyLower s := by
  unfold pyLower
  rw [List.map_map]
  exact List.map_congr_left (fun c _ => toLower_idem c)

theorem pySub_iff {p t : Str} : pySub p t = true ↔ p <:+: t := by
  unfold pySub
  exact decide_eq_true_iff

theorem contains_any_iff {ps : List Str} {t : Str} (hclean : ∀ p ∈ ps, pyLower p = p) :
    contains_any t ps = true ↔ ∃ p ∈ ps, p <:+: pyLower t := by
  unfold contains_any
  rw [List.any_eq_true]
  constructor
  · rintro ⟨p, hp, hdec⟩
    exact ⟨p, hp, by rw [← hclean p hp]; exact pySub_iff.mp hdec⟩
  · rintro ⟨p, hp, hinf⟩
    exact ⟨p, hp, pySub_iff.mpr (by rw [hclean p hp]; exact hinf)⟩

/-- Concrete oracle bundle used by the closed-instance theorems. -/
def oracleConst (f : FetchOutcome) (genOut : Option Str) (ok : Bool) : Oracles :=
  ⟨fun _ => f, fun s => s, fun s => s, fun _ _ _ => genOut, fun _ => ok,
   "2026-01-01".data, "2026-01-01T00:00:00Z".data⟩

/- ----------------------------
   Claim C2 — chunking correctness
   ---------------------------- -/

/-- C2 (amended): for every message and positive size budget, concatenating the
    chunks of `chunk_for_slack` in order reproduces the message exactly, every
    chunk is a concatenation of consecutive whole lines (no line is split
    across two chunks), and every chunk fits the budget unless it is a single
    line of the message that by itself exceeds the budget. -/
theorem claim_C2_chunking (msg : Str) (maxc : Nat) (_hpos : 0 < maxc) :
    (chunk_for_slack msg maxc).flatten = msg ∧
    (∃ gs : List (List Str), chunk_for_slack msg maxc = gs.map List.flatten ∧
      gs.flatten = splitlinesKeep msg) ∧
    (∀ c ∈ chunk_for_slack msg maxc, c.length ≤ maxc ∨ c ∈ splitlinesKeep msg) := by
  unfold chunk_for_slack
  by_cases h : msg.length ≤ maxc
  · rw [if_pos h]
    refine ⟨by simp, ⟨[splitlinesKeep msg], ?_, by simp⟩, ?_⟩
    · simp [splitlinesKeep_flatten]
    · intro c hc
      rw [List.mem_singleton] at hc
      subst hc
      exact Or.inl h
  · rw [if_neg h]
    refine ⟨?_, ?_, ?_⟩
    · rw [chunkLoop_flatten]
      simp [splitlinesKeep_flatten]
    · have hg := chunkLoop_grouping maxc (splitlinesKeep msg) []
        (splitlinesKeep_ne_nil msg) (by simp)
      simpa using hg
    · exact chunkLoop_bound maxc (splitlinesKeep msg) (splitlinesKeep msg) []
        (Or.inl (by simp)) (fun l hl => hl)

/-- C2 counterexample: with budget 1, the single-line message `"ab"` is returned
    as one chunk of length 2, so a chunk can exceed the positive size budget. -/
theorem claim_C2_counterexample :
    ∃ c, c ∈ chunk_for_slack "ab".data 1 ∧ 1 < c.length :=
  ⟨"ab".data, by decide, by decide⟩

/-- C2 witness: the amended theorem applied at a concrete message and budget. -/
theorem claim_C2_witness :
    0 < 3 ∧ (chunk_for_slack "ab\ncd".data 3).flatten = "ab\ncd".data :=
  ⟨by decide, (claim_C2_chunking "ab\ncd".data 3 (by decide)).1⟩

/- ----------------------------
   Claim C3 — bullet budget
   ---------------------------- -/

theorem summarize_post_length (out : Str) (bullets : Nat) (h : 1 ≤ bullets) :
    1 ≤ (summarize_post out bullets).length ∧
      (summarize_post out bullets).length ≤ bullets := by
  unfold summarize_post
  have hm : max 1 bullets = bullets := Nat.max_eq_right h
  cases hl : (usable_lines (pyStrip out)).isEmpty
  · simp only [hl, Bool.false_eq_true, if_false]
    have hlen := List.length_take (max 1 bullets) (usable_lines (pyStrip out))
    have hne : usable_lines (pyStrip out) ≠ [] := by
      intro h0
      rw [h0] at hl
      simp at hl
    have hpos : 1 ≤ (usable_lines (pyStrip out)).length :=
      List.length_pos.mpr hne
    constructor
    · rw [hlen, hm]
      omega
    · rw [hlen, hm]
      omega
  · simp only [hl, if_true]
    rw [List.take_of_length_le (by simp [hm, h])]
    simp [h]

theorem summarize_post_sentinel (out : Str) (bullets : Nat)
    (h : usable_lines (pyStrip out) = []) :
    summarize_post out bullets = [NO_SUMMARY_SENTINEL] := by
  unfold summarize_post
  rw [h]
  simp only [List.isEmpty_nil, if_true]
  exact List.take_of_length_le (by simp [Nat.le_max_left])

/-- C3: whenever the generation call returns (with any output text), for every
    mode and every requested bullet budget (budgets requested by the mode
    selector are all ≥ 1), `summarize_maradmin` returns the post-processed
    bullet list whose length is between 1 and the budget inclusive, and when no
    usable lines remain after stripping, the single sentinel line is returned
    instead of an empty list. -/
theorem claim_C3_bullet_budget (oc : Oracles) (model title link published mtext mode : Str)
    (bullets : Nat) (out : Str) (hb : 1 ≤ bullets)
    (hgen : oc.gen model (build_llm_instructions mode bullets)
      (build_user_input title link published mtext) = some out) :
    summarize_maradmin oc model title link published mtext mode bullets =
      some (summarize_post out bullets) ∧
    1 ≤ (summarize_post out bullets).length ∧
    (summarize_post out bullets).length ≤ bullets ∧
    (usable_lines (pyStrip out) = [] →
      summarize_post out bullets = [NO_SUMMARY_SENTINEL]) := by
  refine ⟨?_, (summarize_post_length out bullets hb).1,
    (summarize_post_length out bullets hb).2, summarize_post_sentinel out bullets⟩
  have hdef : summarize_maradmin oc model title link published mtext mode bullets =
      match oc.gen model (build_llm_instructions mode bullets)
        (build_user_input title link published mtext) with
      | none => none
      | some o => some (summarize_post o bullets) := rfl
  rw [hdef, hgen]

/-- C3 witness: a concrete generation output with three usable bullet lines and
    budget 2 comes back with exactly two bullets. -/
theorem claim_C3_witness :
    summarize_maradmin (oracleConst .otherError (some "- alpha\n\n- beta\n- gamma".data) true)
      "m".data "t".data "l".data "p".data "x".data "minimal".data 2 =
      some (summarize_post "- alpha\n\n- beta\n- gamma".data 2) ∧
    1 ≤ (summarize_post "- alpha\n\n- beta\n- gamma".data 2).length ∧
    (summarize_post "- alpha\n\n- beta\n- gamma".data 2).length ≤ 2 ∧
    (usable_lines (pyStrip "- alpha\n\n- beta\n- gamma".data) = [] →
      summarize_post "- alpha\n\n- beta\n- gamma".data 2 = [NO_SUMMARY_SENTINEL]) :=
  claim_C3_bullet_budget (oracleConst .otherError (some "- alpha\n\n- beta\n- gamma".data) true)
    "m".data "t".data "l".data "p".data "x".data "minimal".data 2
    "- alpha\n\n- beta\n- gamma".data (by decide) rfl

example : summarize_post "- alpha\n\n- beta\n- gamma".data 2 =
    ["alpha".data, "beta".data] := by decide

/- ----------------------------
   Claim C7 — load_state never fails
   ---------------------------- -/

/-- C7: `load_state` is total; a missing, unreadable, or corrupt state file
    yields the empty state, and with the empty state every entry with a
    nonempty id is treated as new. -/
theorem claim_C7_load_state :
    load_state .missing = JVal.obj [] ∧
    load_state .ioError = JVal.obj [] ∧
    load_state .parseError = JVal.obj [] ∧
    (∀ v, load_state (.ok v) = v) ∧
    seen_ids_set [] = [] ∧
    (∀ entries : List FeedEntry, find_new_entries entries (seen_ids_set []) =
      entries.filter (fun e => !(normalize_id e).isEmpty)) := by
  refine ⟨rfl, rfl, rfl, fun v => rfl, rfl, fun entries => ?_⟩
  unfold find_new_entries
  refine List.filter_congr (fun e he => ?_)
  simp [seen_ids_set, seen_ids_value, jGet]

/- ----------------------------
   Claim C4 — classifier rules
   ---------------------------- -/

theorem bool_eq_false_of_not {b : Bool} {P : Prop} (hiff : b = true ↔ P) (h : ¬ P) :
    b = false := by
  cases hb : b
  · rfl
  · exact absurd (hiff.mp hb) h

theorem kw_clean_promotion : ∀ p ∈ KW_PROMOTION_LIST, pyLower p = p := by decide

theorem kw_clean_results : ∀ p ∈ KW_RESULTS, pyLower p = p := by decide

theorem kw_clean_board : ∀ p ∈ KW_BOARD_SCHEDULE, pyLower p = p := by decide

theorem priority_clean : ∀ p ∈ PRIORITY_TOPICS, pyLower p = p := by decide

theorem high_mos_17 : ∀ m ∈ HIGH_MOS, m.take 2 = "17".data := by decide

/-- Category-A condition as worded in the spec: a promotion-list keyword
    matches, and a results keyword matches or the text has a generic
    "promotion" stem. `t` is the lower-cased concatenation. -/
def specCondA (t : Str) : Prop :=
  (∃ p ∈ KW_PROMOTION_LIST, p <:+: t) ∧
  ((∃ p ∈ KW_RESULTS, p <:+: t) ∨ "promot".data <:+: t)

/-- Category-B condition: a board-schedule keyword matches and the text
    contains "board" or "selection". -/
def specCondB (t : Str) : Prop :=
  (∃ p ∈ KW_BOARD_SCHEDULE, p <:+: t) ∧
  ("board".data <:+: t ∨ "selection".data <:+: t)

/-- Category-C condition: a results keyword matches. -/
def specCondC (t : Str) : Prop := ∃ p ∈ KW_RESULTS, p <:+: t

instance (t : Str) : Decidable (specCondA t) := by unfold specCondA; infer_instance

instance (t : Str) : Decidable (specCondB t) := by unfold specCondB; infer_instance

instance (t : Str) : Decidable (specCondC t) := by unfold specCondC; infer_instance

/-- The classifier as the spec words it: first-match-wins over the four
    ordered conditions. -/
def specClassify (t : Str) : Str :=
  if specCondA t then "PROMOTION_LIST_READ_ASAP".data
  else if specCondB t then "BOARD_DATES_ONE_LINER".data
  else if specCondC t then "RESULTS_BRIEF".data
  else "GENERAL".data

theorem condA_iff {t : Str} (hid : pyLower t = t) :
    (contains_any t KW_PROMOTION_LIST &&
      (contains_any t KW_RESULTS || pySub "promot".data t)) = true ↔ specCondA t := by
  unfold specCondA
  rw [Bool.and_eq_true, Bool.or_eq_true, contains_any_iff kw_clean_promotion,
    contains_any_iff kw_clean_results, pySub_iff, hid]

theorem condB_iff {t : Str} (hid : pyLower t = t) :
    (contains_any t KW_BOARD_SCHEDULE &&
      (pySub "board".data t || pySub "selection".data t)) = true ↔ specCondB t := by
  unfold specCondB
  rw [Bool.and_eq_true, Bool.or_eq_true, contains_any_iff kw_clean_board,
    pySub_iff, pySub_iff, hid]

theorem condC_iff {t : Str} (hid : pyLower t = t) :
    contains_any t KW_RESULTS = true ↔ specCondC t := by
  unfold specCondC
  rw [contains_any_iff kw_clean_results, hid]

/-- C4: `classify_maradmin` evaluates the ordered rules first-match-wins over
    the lower-cased concatenation of title and body: Category A
    (PROMOTION_LIST_READ_ASAP) exactly when a promotion-list keyword matches
    and (a results keyword matches or "promot" occurs); otherwise Category B
    (BOARD_DATES_ONE_LINER) when a board-schedule keyword matches and "board"
    or "selection" occurs; otherwise Category C (RESULTS_BRIEF) when a results
    keyword matches; otherwise Category D (GENERAL). -/
theorem claim_C4_classifier (title body : Str) :
    classify_maradmin title body = specClassify (pyLower (title ++ '\n' :: body)) := by
  have hid : pyLower (pyLower (title ++ '\n' :: body)) = pyLower (title ++ '\n' :: body) :=
    pyLower_idem _
  set t := pyLower (title ++ '\n' :: body) with ht
  have hdef : classify_maradmin title body =
      (if contains_any t KW_PROMOTION_LIST &&
            (contains_any t KW_RESULTS || pySub "promot".data t) then
         "PROMOTION_LIST_READ_ASAP".data
       else if contains_any t KW_BOARD_SCHEDULE &&
            (pySub "board".data t || pySub "selection".data t) then
         "BOARD_DATES_ONE_LINER".data
       else if contains_any t KW_RESULTS then "RESULTS_BRIEF".data
       else "GENERAL".data) := rfl
  rw [hdef]
  unfold specClassify
  by_cases hA : specCondA t
  · have h1 := (condA_iff hid).mpr hA
    rw [if_pos h1, if_pos hA]
  · have h1 := bool_eq_false_of_not (condA_iff hid) hA
    rw [if_neg (by simp [h1]), if_neg hA]
    by_cases hB : specCondB t
    · have h2 := (condB_iff hid).mpr hB
      rw [if_pos h2, if_pos hB]
    · have h2 := bool_eq_false_of_not (condB_iff hid) hB
      rw [if_neg (by simp [h2]), if_neg hB]
      by_cases hC : specCondC t
      · have h3 := (condC_iff hid).mpr hC
        rw [if_pos h3, if_pos hC]
      · have h3 := bool_eq_false_of_not (condC_iff hid) hC
        rw [if_neg (by simp [h3]), if_neg hC]

/- ----------------------------
   Claim C6 — mode selection table
   ---------------------------- -/

/-- The "matches a focus numeric-code (17XX)" signal as worded in the spec:
    some extracted 4-digit code starts with "17" (the HIGH_MOS set is contained
    in the 17XX family, so the code's extra HIGH_MOS disjunct adds nothing). -/
def specFocus (text : Str) : Prop :=
  ∃ m ∈ extract_mos_codes text, m.take 2 = "17".data

/-- The "matches a priority-topic keyword list" signal. -/
def specPriority (text : Str) : Prop := ∃ p ∈ PRIORITY_TOPICS, p <:+: pyLower text

instance (text : Str) : Decidable (specFocus text) := by unfold specFocus; infer_instance

instance (text : Str) : Decidable (specPriority text) := by
  unfold specPriority; infer_instance

/-- The mode table as the spec words it, with the focus-code signal taking
    precedence over the priority-topic signal. -/
def specChoose (category : Str) (text : Str) : ModeDecision :=
  if category = "PROMOTION_LIST_READ_ASAP".data then ⟨"read_asap".data, 3⟩
  else if category = "BOARD_DATES_ONE_LINER".data then ⟨"dates_only".data, 14⟩
  else if category = "RESULTS_BRIEF".data then ⟨"brief_results".data, 2⟩
  else if specFocus text then ⟨"full_17xx".data, 6⟩
  else if specPriority text then ⟨"fyi_not_17xx".data, 3⟩
  else ⟨"minimal".data, 1⟩

theorem mos_flag_iff (text : Str) : (mos_relevance text).1 = true ↔ specFocus text := by
  unfold mos_relevance specFocus
  rw [Bool.or_eq_true, List.any_eq_true]
  constructor
  · rintro (hhigh | ⟨m, hm, hdec⟩)
    · have hne : pySortStr ((extract_mos_codes text).filter
          (fun m => HIGH_MOS.contains m)) ≠ [] := by
        simpa [List.isEmpty_iff] using hhigh
      rcases List.exists_mem_of_ne_nil _ hne with ⟨m, hm⟩
      have hm' : m ∈ (extract_mos_codes text).filter (fun m => HIGH_MOS.contains m) :=
        (List.perm_insertionSort _ _).mem_iff.mp hm
      rcases List.mem_filter.mp hm' with ⟨hmem, hcont⟩
      exact ⟨m, hmem, high_mos_17 m (List.elem_iff.mp hcont)⟩
    · exact ⟨m, hm, of_decide_eq_true hdec⟩
  · rintro ⟨m, hm, h17⟩
    right
    exact ⟨m, hm, decide_eq_true h17⟩

theorem priority_flag_iff (text : Str) :
    contains_any text PRIORITY_TOPICS = true ↔ specPriority text := by
  unfold specPriority
  exact contains_any_iff priority_clean

/-- C6: `choose_summary_mode` implements the closed table: Category A yields
    read_asap with budget 3, Category B dates_only with 14, Category C
    brief_results with 2; Category D yields full_17xx with 6 on a 17XX
    focus-code match, else fyi_not_17xx with 3 on a priority-topic match, else
    minimal with exactly 1 — the focus-code signal taking precedence. -/
theorem claim_C6_mode_table (category title body : Str) :
    choose_summary_mode category title body = specChoose category (title ++ '\n' :: body) := by
  set text := title ++ '\n' :: body with htx
  have hdef : choose_summary_mode category title body =
      (if category = "PROMOTION_LIST_READ_ASAP".data then ⟨"read_asap".data, 3⟩
       else if category = "BOARD_DATES_ONE_LINER".data then ⟨"dates_only".data, 14⟩
       else if category = "RESULTS_BRIEF".data then ⟨"brief_results".data, 2⟩
       else if (mos_relevance text).1 then ⟨"full_17xx".data, 6⟩
       else if contains_any text PRIORITY_TOPICS then ⟨"fyi_not_17xx".data, 3⟩
       else (⟨"minimal".data, 1⟩ : ModeDecision)) := rfl
  rw [hdef]
  unfold specChoose
  by_cases h1 : category = "PROMOTION_LIST_READ_ASAP".data
  · rw [if_pos h1, if_pos h1]
  · rw [if_neg h1, if_neg h1]
    by_cases h2 : category = "BOARD_DATES_ONE_LINER".data
    · rw [if_pos h2, if_pos h2]
    · rw [if_neg h2, if_neg h2]
      by_cases h3 : category = "RESULTS_BRIEF".data
      · rw [if_pos h3, if_pos h3]
      · rw [if_neg h3, if_neg h3]
        by_cases hF : specFocus text
        · have hf := (mos_flag_iff text).mpr hF
          rw [if_pos hf, if_pos hF]
        · have hf := bool_eq_false_of_not (mos_flag_iff text) hF
          rw [if_neg (by simp [hf]), if_neg hF]
          by_cases hP : specPriority text
          · have hp := (priority_flag_iff text).mpr hP
            rw [if_pos hp, if_pos hP]
          · have hp := bool_eq_false_of_not (priority_flag_iff text) hP
            rw [if_neg (by simp [hp]), if_neg hP]

/- ----------------------------
   Claim C5 — full-message heuristic
   ---------------------------- -/

/-- C5 (amended): `looks_like_full_message` returns true exactly when the text
    is nonempty and its lower-casing contains "maradmin", "msgid/genadmin", or
    the two-character substring "r " anywhere (the "r " check aims at leading
    military date-stamp lines but matches the substring at any position); it
    returns false on the empty string; and whenever it returns true and the
    cleaned feed body is nonempty, the pipeline uses that cleaned feed body
    directly, never consulting the page-fetch capability. -/
theorem claim_C5_full_message_detection :
    (∀ text : Str, looks_like_full_message text = true ↔
      text ≠ [] ∧ ("maradmin".data <:+: pyLower text ∨
        "msgid/genadmin".data <:+: pyLower text ∨ "r ".data <:+: pyLower text)) ∧
    looks_like_full_message [] = false ∧
    (∀ (oc : Oracles) (f : Str → FetchOutcome) (showRaw : Bool) (model : Str)
       (e : FeedEntry),
      looks_like_full_message e.summary = true →
      clean_rss_summary oc e.summary ≠ [] →
      process_item { oc with fetch := f } showRaw model e =
        process_item oc showRaw model e) := by
  have hiff : ∀ text : Str, looks_like_full_message text = true ↔
      text ≠ [] ∧ ("maradmin".data <:+: pyLower text ∨
        "msgid/genadmin".data <:+: pyLower text ∨ "r ".data <:+: pyLower text) := by
    intro text
    have hdef : looks_like_full_message text =
        (if (pyLower text).isEmpty then false
         else pySub "maradmin".data (pyLower text) ||
           pySub "msgid/genadmin".data (pyLower text) ||
           pySub "r ".data (pyLower text)) := rfl
    rw [hdef]
    by_cases h0 : text = []
    · subst h0
      simp [pyLower]
    · have hne : (pyLower text).isEmpty = false := by
        rcases List.exists_cons_of_ne_nil h0 with ⟨c, rest, rfl⟩
        simp [pyLower]
      rw [hne]
      simp only [Bool.false_eq_true, if_false, Bool.or_eq_true, pySub_iff]
      constructor
      · rintro (h | h) 
        · rcases h with h | h
          · exact ⟨h0, Or.inl h⟩
          · exact ⟨h0, Or.inr (Or.inl h)⟩
        · exact ⟨h0, Or.inr (Or.inr h)⟩
      · rintro ⟨-, h | h | h⟩
        · exact Or.inl (Or.inl h)
        · exact Or.inl (Or.inr h)
        · exact Or.inr h
  refine ⟨hiff, by decide, ?_⟩
  intro oc f showRaw model e hlook hclean
  rcases oc with ⟨fe, sc, sp, g, d, st, ni⟩
  have hcond : (!(clean_rss_summary ⟨fe, sc, sp, g, d, st, ni⟩ e.summary).isEmpty) = true := by
    cases h : clean_rss_summary ⟨fe, sc, sp, g, d, st, ni⟩ e.summary with
    | nil => exact absurd h hclean
    | cons c r => simp
  have hcondf : (!(clean_rss_summary ⟨f, sc, sp, g, d, st, ni⟩ e.summary).isEmpty) = true :=
    hcond
  unfold process_item preferred_feed_text
  rw [hlook]
  simp only [if_true]
  rw [if_pos hcondf, if_pos hcond]
  rfl

/- ----------------------------
   Pipeline lemmas
   ---------------------------- -/

theorem run_main_eq (oc : Oracles) (dryRun force showRaw : Bool) (maxN : Nat)
    (model : Str) (entries0 : List FeedEntry) (seenList : List Str) :
    run_main oc dryRun force showRaw maxN model entries0 seenList =
      if (run_new_entries force maxN entries0 seenList.dedup).isEmpty then
        emptyRunResult seenList.dedup oc.nowIso
      else
        mainRunResult oc dryRun showRaw model
          (run_new_entries force maxN entries0 seenList.dedup) seenList.dedup := rfl

theorem mem_addSeen {s : List Str} {x y : Str} : y ∈ addSeen s x ↔ y ∈ s ∨ y = x := by
  unfold addSeen
  by_cases h : s.contains x = true
  · rw [if_pos h]
    constructor
    · exact Or.inl
    · rintro (hy | rfl)
      · exact hy
      · exact List.mem_of_elem_eq_true h
  · rw [if_neg h]
    simp

theorem nodup_addSeen {s : List Str} {x : Str} (h : s.Nodup) : (addSeen s x).Nodup := by
  unfold addSeen
  by_cases hc : s.contains x = true
  · rw [if_pos hc]
    exact h
  · rw [if_neg hc]
    have hx : x ∉ s := fun hm => hc (List.elem_eq_true_of_mem hm)
    simp [List.nodup_append, h, hx]

theorem mem_seenFold : ∀ (es : List FeedEntry) (s : List Str) (y : Str),
    y ∈ seenFold es s ↔ y ∈ s ∨ ∃ e ∈ es, normalize_id e = y
  | [], s, y => by simp [seenFold]
  | e :: es, s, y => by
    have ih := mem_seenFold es (addSeen s (normalize_id e)) y
    unfold seenFold at ih ⊢
    rw [List.foldl_cons, ih, mem_addSeen]
    constructor
    · rintro ((hy | hy) | ⟨e', he', rfl⟩)
      · exact Or.inl hy
      · exact Or.inr ⟨e, List.mem_cons_self e es, hy.symm⟩
      · exact Or.inr ⟨e', List.mem_cons_of_mem e he', rfl⟩
    · rintro (hy | ⟨e', he', rfl⟩)
      · exact Or.inl (Or.inl hy)
      · rcases List.mem_cons.mp he' with rfl | hmem
        · exact Or.inl (Or.inr rfl)
        · exact Or.inr ⟨e', hmem, rfl⟩

theorem nodup_seenFold : ∀ (es : List FeedEntry) (s : List Str), s.Nodup → (seenFold es s).Nodup
  | [], _ => fun h => h
  | e :: es, s => fun h => by
    unfold seenFold
    rw [List.foldl_cons]
    exact nodup_seenFold es (addSeen s (normalize_id e)) (nodup_addSeen h)

theorem deliverAll_all_true (d : Str → Bool) :
    ∀ (cs : List Str), (∀ c ∈ cs, d c = true) → (deliverAll d cs).2 = true
  | [], _ => rfl
  | c :: cs, h => by
    unfold deliverAll
    rw [if_pos (h c (List.mem_cons_self c cs))]
    exact deliverAll_all_true d cs (fun x hx => h x (List.mem_cons_of_mem c hx))

theorem mainRunResult_fields (oc : Oracles) (dryRun showRaw : Bool) (model : Str)
    (newE : List FeedEntry) (seen0 : List Str) :
    (mainRunResult oc dryRun showRaw model newE seen0).newEntries = newE ∧
    (mainRunResult oc dryRun showRaw model newE seen0).finalSeen = seenFold newE seen0 ∧
    (mainRunResult oc dryRun showRaw model newE seen0).chunks =
      chunk_for_slack (build_slack_message oc.stamp newE
        (summariesFold oc showRaw model newE)) SLACK_MAX_CHARS := by
  unfold mainRunResult
  cases hdr : (dryRun || showRaw)
  · simp only [hdr, Bool.false_eq_true, if_false]
    refine ⟨?_, ?_, ?_⟩ <;> trivial
  · simp only [hdr, if_true]
    refine ⟨?_, ?_, ?_⟩ <;> trivial

theorem mainRunResult_persisted_some (oc : Oracles) (dryRun showRaw : Bool) (model : Str)
    (newE : List FeedEntry) (seen0 : List Str) (st : SavedState)
    (h : (mainRunResult oc dryRun showRaw model newE seen0).persisted = some st) :
    st = ⟨pySortStr (seenFold newE seen0), oc.nowIso⟩ := by
  revert h
  unfold mainRunResult
  cases hdr : (dryRun || showRaw)
  · simp only [hdr, Bool.false_eq_true, if_false]
    cases hd : (deliverAll oc.deliver (chunk_for_slack (build_slack_message oc.stamp newE
        (summariesFold oc showRaw model newE)) SLACK_MAX_CHARS)).2
    · intro h
      simp only [hd, Bool.false_eq_true, if_false] at h
      exact absurd h (by simp)
    · intro h
      simp only [hd, if_true] at h
      exact (Option.some.inj h).symm
  · simp only [hdr, if_true]
    intro h
    exact (Option.some.inj h).symm

theorem mainRunResult_persisted_isSome (oc : Oracles) (dryRun showRaw : Bool) (model : Str)
    (newE : List FeedEntry) (seen0 : List Str)
    (h : dryRun = true ∨ showRaw = true ∨
      (∀ c ∈ chunk_for_slack (build_slack_message oc.stamp newE
          (summariesFold oc showRaw model newE)) SLACK_MAX_CHARS,
        oc.deliver c = true)) :
    (mainRunResult oc dryRun showRaw model newE seen0).persisted ≠ none := by
  unfold mainRunResult
  rcases h with h | h | h
  · subst h
    simp
  · subst h
    simp
  · cases hdr : (dryRun || showRaw)
    · simp only [hdr, Bool.false_eq_true, if_false]
      have hall := deliverAll_all_true oc.deliver _ h
      simp [hall]
    · simp [hdr]

theorem run_persisted_complete (oc : Oracles) (dryRun showRaw : Bool) (maxN : Nat)
    (model : Str) (entries0 : List FeedEntry) (seenList : List Str) (st : SavedState)
    (h : (run_main oc dryRun false showRaw maxN model entries0 seenList).persisted = some st) :
    ∀ e ∈ entries0.take (max 1 maxN), normalize_id e ≠ [] → normalize_id e ∈ st.seen_ids := by
  rw [run_main_eq] at h
  by_cases hempty : (run_new_entries false maxN entries0 seenList.dedup).isEmpty = true
  · rw [if_pos hempty] at h
    have hst : st = ⟨pySortStr seenList.dedup, oc.nowIso⟩ := (Option.some.inj h).symm
    subst hst
    intro e he hne
    have hnil : run_new_entries false maxN entries0 seenList.dedup = [] :=
      List.isEmpty_iff.mp hempty
    have hfe : List.filter
        (fun e => !(normalize_id e).isEmpty && !(seenList.dedup).contains (normalize_id e))
        (entries0.take (max 1 maxN)) = [] := hnil
    have hdrop := List.filter_eq_nil_iff.mp hfe e he
    have hmem : normalize_id e ∈ seenList.dedup := by
      by_contra hnm
      apply hdrop
      have hc : (seenList.dedup).contains (normalize_id e) = false := by
        cases hcc : (seenList.dedup).contains (normalize_id e)
        · rfl
        · exact absurd (List.mem_of_elem_eq_true hcc) hnm
      have hie : (normalize_id e).isEmpty = false := by
        cases hee : (normalize_id e).isEmpty
        · rfl
        · exact absurd (List.isEmpty_iff.mp hee) hne
      rw [hc, hie]
      rfl
    exact (List.perm_insertionSort _ _).mem_iff.mpr hmem
  · rw [if_neg hempty] at h
    have hst := mainRunResult_persisted_some _ _ _ _ _ _ _ h
    subst hst
    intro e he hne
    refine (List.perm_insertionSort _ _).mem_iff.mpr ?_
    rw [mem_seenFold]
    by_cases hc : (seenList.dedup).contains (normalize_id e) = true
    · exact Or.inl (List.mem_of_elem_eq_true hc)
    · right
      refine ⟨e, ?_, rfl⟩
      show e ∈ List.filter
        (fun e => !(normalize_id e).isEmpty && !(seenList.dedup).contains (normalize_id e))
        (entries0.take (max 1 maxN))
      rw [List.mem_filter]
      refine ⟨he, ?_⟩
      have hcf : (seenList.dedup).contains (normalize_id e) = false := by
        cases hcc : (seenList.dedup).contains (normalize_id e)
        · rfl
        · exact absurd hcc hc
      have hie : (normalize_id e).isEmpty = false := by
        cases hee : (normalize_id e).isEmpty
        · rfl
        · exact absurd (List.isEmpty_iff.mp hee) hne
      rw [hcf, hie]
      rfl

theorem find_new_eq_nil_of_complete {entries : List FeedEntry} {seen : List Str}
    (h : ∀ e ∈ entries, normalize_id e ≠ [] → normalize_id e ∈ seen) :
    find_new_entries entries seen = [] := by
  show List.filter
    (fun e => !(normalize_id e).isEmpty && !seen.contains (normalize_id e)) entries = []
  rw [List.filter_eq_nil_iff]
  intro e he hcontra
  by_cases hne : normalize_id e = []
  · rw [hne] at hcontra
    simp at hcontra
  · have hc : seen.contains (normalize_id e) = true :=
      List.elem_eq_true_of_mem (h e he hne)
    rw [hc] at hcontra
    simp at hcontra

/- ----------------------------
   Claim C8 — idempotence of a second run
   ---------------------------- -/

/-- C8: if a run without the force flag persists its state, then every entry of
    the truncated feed with a nonempty normalized id is in the persisted seen
    set, `find_new_entries` on the same entries against that set is empty, and
    a second run on identical feed content (any oracles and flags, still
    without force) takes the early exit: no new entries, nothing delivered. -/
theorem claim_C8_idempotence (oc oc2 : Oracles) (dryRun dryRun2 showRaw showRaw2 : Bool)
    (maxN : Nat) (model model2 : Str) (entries0 : List FeedEntry) (seenList : List Str)
    (st : SavedState)
    (hpersist : (run_main oc dryRun false showRaw maxN model entries0 seenList).persisted =
      some st) :
    (∀ e ∈ entries0.take (max 1 maxN), normalize_id e ≠ [] → normalize_id e ∈ st.seen_ids) ∧
    find_new_entries (entries0.take (max 1 maxN)) st.seen_ids = [] ∧
    run_main oc2 dryRun2 false showRaw2 maxN model2 entries0 st.seen_ids =
      emptyRunResult st.seen_ids.dedup oc2.nowIso ∧
    (run_main oc2 dryRun2 false showRaw2 maxN model2 entries0 st.seen_ids).newEntries = [] ∧
    (run_main oc2 dryRun2 false showRaw2 maxN model2 entries0 st.seen_ids).delivered = [] := by
  have hcomp := run_persisted_complete oc dryRun showRaw maxN model entries0 seenList st hpersist
  have hcomp2 : ∀ e ∈ entries0.take (max 1 maxN),
      normalize_id e ≠ [] → normalize_id e ∈ st.seen_ids.dedup :=
    fun e he hne => List.mem_dedup.mpr (hcomp e he hne)
  have hfe2 : find_new_entries (entries0.take (max 1 maxN)) st.seen_ids.dedup = [] :=
    find_new_eq_nil_of_complete hcomp2
  have hrun2 : run_main oc2 dryRun2 false showRaw2 maxN model2 entries0 st.seen_ids =
      emptyRunResult st.seen_ids.dedup oc2.nowIso := by
    rw [run_main_eq]
    have hrne : run_new_entries false maxN entries0 st.seen_ids.dedup =
        find_new_entries (entries0.take (max 1 maxN)) st.seen_ids.dedup := rfl
    rw [if_pos (by rw [hrne, hfe2]; rfl)]
  refine ⟨hcomp, find_new_eq_nil_of_complete hcomp, hrun2, ?_, ?_⟩
  · rw [hrun2]
    rfl
  · rw [hrun2]
    rfl

/-- C8 witness: after a dry-run over one entry with id "X" starting from empty
    state, the persisted set is `["X"]` and a second run finds nothing new. -/
theorem claim_C8_witness :
    (run_main (oracleConst FetchOutcome.otherError none true) false false false 10
      "m2".data [⟨"X".data, "t".data, "L".data, [], "p".data⟩]
      (SavedState.mk ["X".data] "2026-01-01T00:00:00Z".data).seen_ids).newEntries = [] :=
  (claim_C8_idempotence (oracleConst FetchOutcome.otherError none true)
    (oracleConst FetchOutcome.otherError none true) true false false false 10
    "m".data "m2".data [⟨"X".data, "t".data, "L".data, [], "p".data⟩] []
    (SavedState.mk ["X".data] "2026-01-01T00:00:00Z".data) (by decide)).2.2.2.1

/- ----------------------------
   Claim C10 — canonical sorted persistence
   ---------------------------- -/

/-- C10: whenever a run persists state — on the no-new-items early exit or at
    the normal end of a run — the persisted seen-id list is sorted, free of
    duplicates, and its membership is exactly the in-memory seen set. -/
theorem claim_C10_sorted_persistence (oc : Oracles) (dryRun force showRaw : Bool)
    (maxN : Nat) (model : Str) (entries0 : List FeedEntry) (seenList : List Str)
    (st : SavedState)
    (h : (run_main oc dryRun force showRaw maxN model entries0 seenList).persisted = some st) :
    st.seen_ids.Sorted (· ≤ ·) ∧ st.seen_ids.Nodup ∧
    (∀ x, x ∈ st.seen_ids ↔
      x ∈ (run_main oc dryRun force showRaw maxN model entries0 seenList).finalSeen) := by
  rw [run_main_eq] at h
  rw [run_main_eq]
  by_cases hempty : (run_new_entries force maxN entries0 seenList.dedup).isEmpty = true
  · rw [if_pos hempty] at h
    rw [if_pos hempty]
    have hst : st = ⟨pySortStr seenList.dedup, oc.nowIso⟩ := (Option.some.inj h).symm
    subst hst
    refine ⟨List.sorted_insertionSort _ _, ?_, ?_⟩
    · exact (List.perm_insertionSort _ _).nodup_iff.mpr (List.nodup_dedup _)
    · intro x
      exact (List.perm_insertionSort _ _).mem_iff
  · rw [if_neg hempty] at h
    rw [if_neg hempty]
    have hst := mainRunResult_persisted_some _ _ _ _ _ _ _ h
    subst hst
    refine ⟨List.sorted_insertionSort _ _, ?_, ?_⟩
    · exact (List.perm_insertionSort _ _).nodup_iff.mpr
        (nodup_seenFold _ _ (List.nodup_dedup _))
    · intro x
      rw [(mainRunResult_fields oc dryRun showRaw model _ _).2.1]
      exact (List.perm_insertionSort _ _).mem_iff

/-- C10 witness: the early exit starting from the unsorted duplicated list
    `["b", "a", "b"]` persists the canonical `["a", "b"]`. -/
theorem claim_C10_witness :
    (SavedState.mk ["a".data, "b".data] "2026-01-01T00:00:00Z".data).seen_ids.Sorted (· ≤ ·) ∧
    (SavedState.mk ["a".data, "b".data] "2026-01-01T00:00:00Z".data).seen_ids.Nodup ∧
    (∀ x, x ∈ (SavedState.mk ["a".data, "b".data] "2026-01-01T00:00:00Z".data).seen_ids ↔
      x ∈ (run_main (oracleConst FetchOutcome.otherError none true) false false false 10
        "m".data [] ["b".data, "a".data, "b".data]).finalSeen) :=
  claim_C10_sorted_persistence (oracleConst FetchOutcome.otherError none true) false false
    false 10 "m".data [] ["b".data, "a".data, "b".data]
    (SavedState.mk ["a".data, "b".data] "2026-01-01T00:00:00Z".data) (by decide)

/- ----------------------------
   Claim C1 — seen tracking and persistence
   ---------------------------- -/

/-- C1 (amended): every attempted item's id enters the in-memory seen set
    whatever its fetch, fallback or summarization outcome, the previously seen
    ids stay in the set, and any persisted state holds exactly that set; but
    the end-of-run persist happens only when the run reaches the final save —
    under `--dry-run`/`--show-raw`, or when every chunk delivery succeeds. A
    failing Slack delivery raises before `save_state`, so nothing is persisted
    in that case (refuting "regardless of ... delivery to the chat
    transport"). -/
theorem claim_C1_seen_tracking (oc : Oracles) (dryRun force showRaw : Bool) (maxN : Nat)
    (model : Str) (entries0 : List FeedEntry) (seenList : List Str) :
    (∀ e ∈ (run_main oc dryRun force showRaw maxN model entries0 seenList).newEntries,
      normalize_id e ∈
        (run_main oc dryRun force showRaw maxN model entries0 seenList).finalSeen) ∧
    (∀ x ∈ seenList,
      x ∈ (run_main oc dryRun force showRaw maxN model entries0 seenList).finalSeen) ∧
    (∀ st,
      (run_main oc dryRun force showRaw maxN model entries0 seenList).persisted = some st →
      ∀ x, x ∈ st.seen_ids ↔
        x ∈ (run_main oc dryRun force showRaw maxN model entries0 seenList).finalSeen) ∧
    ((dryRun = true ∨ showRaw = true ∨
        ∀ c ∈ (run_main oc dryRun force showRaw maxN model entries0 seenList).chunks,
          oc.deliver c = true) →
      (run_main oc dryRun force showRaw maxN model entries0 seenList).persisted ≠ none) := by
  rw [run_main_eq]
  by_cases hempty : (run_new_entries force maxN entries0 seenList.dedup).isEmpty = true
  · rw [if_pos hempty]
    refine ⟨?_, ?_, ?_, ?_⟩
    · intro e he
      rw [show (emptyRunResult seenList.dedup oc.nowIso).newEntries = [] from rfl] at he
      exact absurd he (List.not_mem_nil e)
    · intro x hx
      exact List.mem_dedup.mpr hx
    · intro s hs x
      have hst : s = ⟨pySortStr seenList.dedup, oc.nowIso⟩ := (Option.some.inj hs).symm
      subst hst
      exact (List.perm_insertionSort _ _).mem_iff
    · intro _ hcon
      exact Option.noConfusion hcon
  · rw [if_neg hempty]
    obtain ⟨hNE, hFS, hCH⟩ := mainRunResult_fields oc dryRun showRaw model
      (run_new_entries force maxN entries0 seenList.dedup) seenList.dedup
    refine ⟨?_, ?_, ?_, ?_⟩
    · intro e he
      rw [hNE] at he
      rw [hFS, mem_seenFold]
      exact Or.inr ⟨e, he, rfl⟩
    · intro x hx
      rw [hFS, mem_seenFold]
      exact Or.inl (List.mem_dedup.mpr hx)
    · intro s hs x
      have hst := mainRunResult_persisted_some _ _ _ _ _ _ _ hs
      subst hst
      rw [hFS]
      exact (List.perm_insertionSort _ _).mem_iff
    · intro hdel
      apply mainRunResult_persisted_isSome
      rcases hdel with h | h | h
      · exact Or.inl h
      · exact Or.inr (Or.inl h)
      · refine Or.inr (Or.inr ?_)
        rw [hCH] at h
        exact h

set_option maxRecDepth 40000 in
/-- C1 counterexample: one new item (id "X"), no dry-run, a Slack webhook that
    fails — the id is in the in-memory seen set, yet no state is persisted at
    run end, refuting "persisted ... regardless of downstream success,
    including delivery to the chat transport". -/
theorem claim_C1_counterexample :
    (run_main (oracleConst FetchOutcome.otherError none false) false false false 10
      "m".data [⟨"X".data, "t".data, "L".data, [], "p".data⟩] []).persisted = none ∧
    "X".data ∈ (run_main (oracleConst FetchOutcome.otherError none false) false false false
      10 "m".data [⟨"X".data, "t".data, "L".data, [], "p".data⟩] []).finalSeen := by
  refine ⟨by decide, by decide⟩

/-- C1 witness: under dry-run the persisted state exists. -/
theorem claim_C1_witness :
    (run_main (oracleConst FetchOutcome.otherError none true) true false false 10
      "m".data [⟨"X".data, "t".data, "L".data, [], "p".data⟩] []).persisted ≠ none :=
  (claim_C1_seen_tracking (oracleConst FetchOutcome.otherError none true) true false false
    10 "m".data [⟨"X".data, "t".data, "L".data, [], "p".data⟩] []).2.2.2 (Or.inl rfl)

/-- C5 counterexample: "for details open link" contains "r " (inside "for "),
    so `looks_like_full_message` returns true although the text has no
    MARADMIN/MSGID marker token and does not begin with a date-stamp line —
    refuting "exactly when ... a leading military-date-stamp pattern". -/
theorem claim_C5_counterexample :
    looks_like_full_message "for details open link".data = true ∧
    ¬ ("maradmin".data <:+: pyLower "for details open link".data) ∧
    ¬ ("msgid/genadmin".data <:+: pyLower "for details open link".data) ∧
    (pyLower "for details open link".data).take 2 ≠ "r ".data := by
  refine ⟨by decide, by decide, by decide, by decide⟩

/-- C5 witness: a feed body carrying a MSGID/GENADMIN marker is used directly;
    the outcome does not depend on the page-fetch capability. -/
theorem claim_C5_witness :
    process_item { oracleConst (FetchOutcome.ok []) none true with
        fetch := fun _ => FetchOutcome.otherError } false "m".data
      ⟨"id".data, "t".data, "L".data, "MSGID/GENADMIN body".data, "p".data⟩ =
    process_item (oracleConst (FetchOutcome.ok []) none true) false "m".data
      ⟨"id".data, "t".data, "L".data, "MSGID/GENADMIN body".data, "p".data⟩ :=
  claim_C5_full_message_detection.2.2 (oracleConst (FetchOutcome.ok []) none true)
    (fun _ => FetchOutcome.otherError) false "m".data
    ⟨"id".data, "t".data, "L".data, "MSGID/GENADMIN body".data, "p".data⟩
    (by decide) (by decide)

/- ----------------------------
   Claim C9 — the 403 fallback note
   ---------------------------- -/

theorem choose_summary_mode_eq (category title body : Str) :
    choose_summary_mode category title body =
      (if category = "PROMOTION_LIST_READ_ASAP".data then ⟨"read_asap".data, 3⟩
       else if category = "BOARD_DATES_ONE_LINER".data then ⟨"dates_only".data, 14⟩
       else if category = "RESULTS_BRIEF".data then ⟨"brief_results".data, 2⟩
       else if (mos_relevance (title ++ '\n' :: body)).1 then ⟨"full_17xx".data, 6⟩
       else if contains_any (title ++ '\n' :: body) PRIORITY_TOPICS then
         ⟨"fyi_not_17xx".data, 3⟩
       else (⟨"minimal".data, 1⟩ : ModeDecision)) := rfl

/-- Every budget requested by the mode selector is at least 1. -/
theorem choose_bullets_pos (category title body : Str) :
    1 ≤ (choose_summary_mode category title body).bullets := by
  rw [choose_summary_mode_eq]
  split
  · decide
  · split
    · decide
    · split
      · decide
      · split
        · decide
        · split
          · decide
          · decide

theorem summarize_post_full_budget (out : Str) (b : Nat) (hb : 1 ≤ b)
    (hlen : b ≤ (usable_lines (pyStrip out)).length) :
    (summarize_post out b).length = b := by
  unfold summarize_post
  have hne : (usable_lines (pyStrip out)).isEmpty = false := by
    cases h0 : usable_lines (pyStrip out) with
    | nil =>
      rw [h0] at hlen
      simp at hlen
      omega
    | cons a l => simp
  simp only [hne, Bool.false_eq_true, if_false]
  rw [List.length_take]
  have hm : max 1 b = b := Nat.max_eq_right hb
  rw [hm]
  exact Nat.min_eq_left hlen

/-- The classification decision made inside the HTTP-error fallback path, over
    the cleaned RSS summary. -/
def fallback_decision (oc : Oracles) (e : FeedEntry) : ModeDecision :=
  choose_summary_mode (classify_maradmin e.title (clean_rss_summary oc e.summary))
    e.title (clean_rss_summary oc e.summary)

/-- C9: when the page fetch raises an HTTP error with status 403, the feed body
    does not look like a full message but cleans to nonempty text, and the
    fallback summarization call returns, the stored bullets are the truncated
    summary with the fallback note appended after truncation; so whenever the
    generation output has at least a full budget of usable lines, the stored
    bullet list has exactly budget-plus-one lines. -/
theorem claim_C9_fallback_note (oc : Oracles) (model : Str) (e : FeedEntry) (out : Str)
    (hfetch : oc.fetch e.link = FetchOutcome.httpError (some 403))
    (hnotfull : looks_like_full_message e.summary = false)
    (hfb : clean_rss_summary oc e.summary ≠ [])
    (hgen : oc.gen model
      (build_llm_instructions (fallback_decision oc e).mode (fallback_decision oc e).bullets)
      (build_user_input e.title e.link e.published (clean_rss_summary oc e.summary)) =
      some out) :
    process_item oc false model e =
      ⟨(fallback_decision oc e).mode,
        extract_maradmin_number e.title (clean_rss_summary oc e.summary),
        summarize_post out (fallback_decision oc e).bullets ++ [RSS_NOTE]⟩ ∧
    ((fallback_decision oc e).bullets ≤ (usable_lines (pyStrip out)).length →
      (process_item oc false model e).bullets.length =
        (fallback_decision oc e).bullets + 1) := by
  have hpf : preferred_feed_text oc e.summary = [] := by
    unfold preferred_feed_text
    rw [hnotfull]
    simp
  have h1 : process_item oc false model e = fallback_step oc false model e (some 403) := by
    have hdefp : process_item oc false model e =
        (if !(preferred_feed_text oc e.summary).isEmpty then
           summarize_step oc false model e (preferred_feed_text oc e.summary)
         else
           match oc.fetch e.link with
           | FetchOutcome.ok html =>
             summarize_step oc false model e (extract_message_text oc html)
           | FetchOutcome.httpError status => fallback_step oc false model e status
           | FetchOutcome.otherError => OPEN_LINK_INFO) := rfl
    rw [hdefp, hpf]
    simp only [List.isEmpty_nil, Bool.not_true, Bool.false_eq_true, if_false]
    rw [hfetch]
  have hsm : summarize_maradmin oc model e.title e.link e.published
      (clean_rss_summary oc e.summary) (fallback_decision oc e).mode
      (fallback_decision oc e).bullets =
      some (summarize_post out (fallback_decision oc e).bullets) := by
    have hdef : summarize_maradmin oc model e.title e.link e.published
        (clean_rss_summary oc e.summary) (fallback_decision oc e).mode
        (fallback_decision oc e).bullets =
        match oc.gen model (build_llm_instructions (fallback_decision oc e).mode
            (fallback_decision oc e).bullets)
          (build_user_input e.title e.link e.published (clean_rss_summary oc e.summary)) with
        | none => none
        | some o => some (summarize_post o (fallback_decision oc e).bullets) := rfl
    rw [hdef, hgen]
  have hfbe : ¬ ((clean_rss_summary oc e.summary).isEmpty = true) := by
    intro hcon
    exact hfb (List.isEmpty_iff.mp hcon)
  have h2 : fallback_step oc false model e (some 403) =
      ⟨(fallback_decision oc e).mode,
        extract_maradmin_number e.title (clean_rss_summary oc e.summary),
        summarize_post out (fallback_decision oc e).bullets ++ [RSS_NOTE]⟩ := by
    have hdeff : fallback_step oc false model e (some 403) =
        (if (clean_rss_summary oc e.summary).isEmpty then OPEN_LINK_INFO
         else
           match summarize_maradmin oc model e.title e.link e.published
               (clean_rss_summary oc e.summary) (fallback_decision oc e).mode
               (fallback_decision oc e).bullets with
           | some bl =>
             ⟨(fallback_decision oc e).mode,
               extract_maradmin_number e.title (clean_rss_summary oc e.summary),
               if (some 403 : Option Nat) = some 403 then bl ++ [RSS_NOTE] else bl⟩
           | none => OPEN_LINK_INFO) := rfl
    rw [hdeff, if_neg hfbe, hsm]
    rfl
  refine ⟨h1.trans h2, ?_⟩
  intro hlen
  rw [h1, h2]
  show (summarize_post out (fallback_decision oc e).bullets ++ [RSS_NOTE]).length =
    (fallback_decision oc e).bullets + 1
  rw [List.length_append]
  rw [summarize_post_full_budget out (fallback_decision oc e).bullets
    (choose_bullets_pos _ _ _) hlen]
  rfl

/-- C9 witness: a concrete 403 fallback over a minimal-mode item whose
    generation output has two usable lines against budget 1 stores exactly two
    bullets (summary plus note). -/
theorem claim_C9_witness :
    (process_item (oracleConst (FetchOutcome.httpError (some 403))
        (some "one\ntwo".data) true) false "m".data
      ⟨"id".data, "t".data, "L".data, "board stuff".data, "p".data⟩).bullets.length =
    (fallback_decision (oracleConst (FetchOutcome.httpError (some 403))
        (some "one\ntwo".data) true)
      ⟨"id".data, "t".data, "L".data, "board stuff".data, "p".data⟩).bullets + 1 :=
  (claim_C9_fallback_note (oracleConst (FetchOutcome.httpError (some 403))
      (some "one\ntwo".data) true) "m".data
    ⟨"id".data, "t".data, "L".data, "board stuff".data, "p".data⟩ "one\ntwo".data
    rfl (by decide) (by decide) rfl).2 (by decide)
